import Mathlib

/-!
Shallow embedding of the `pkg/xet` download client (HuggingFace-style hub
client with optional XET content-addressed deduplication) and proofs about
its specified behaviour.

Conventions of the embedding:
* Rust strings are modelled as Lean `String`; where the source manipulates
  individual characters and byte indices (`str::find`, slicing) we work on
  `List Char` (header values are ASCII in practice, so char indices and byte
  indices coincide).
* `u64` values are `Nat`; the only operation in the sources where the 64-bit
  width is observable is `saturating_add`, modelled by clamping at `U64MAX`.
* Fallible Rust code (`Result`) becomes `Except String`; a Rust panic (the
  out-of-range slice in the Link-header parser) is `Except.error ()` in an
  outer `Except Unit` layer.
* Effectful operations (HTTP sends, filesystem calls, cancellation polls,
  progress callbacks) take their outcomes from an explicit environment
  record and are additionally recorded in an event trace, so that theorems
  can speak about "no network request is issued" and poll ordering.
-/

deriving instance DecidableEq for Except

namespace Xet

/-- Maximum value of a Rust `u64`. -/
def U64MAX : Nat := 2 ^ 64 - 1

/-! ### List/string utilities mirroring the Rust `str` operations used -/

/-- Model of Rust `str::split(',')` (and of splitting a path on '/'):
splits on every occurrence of the separator, keeping empty pieces, so that
splitting the empty string yields one empty piece, as in Rust. -/
def splitOnChar (sep : Char) : List Char → List (List Char)
  | [] => [[]]
  | c :: cs =>
    let rest := splitOnChar sep cs
    if c == sep then
      [] :: rest
    else
      match rest with
      | [] => [[c]]
      | r :: rs => (c :: r) :: rs

/-- Whether `pat` occurs at the head of `l`. -/
def isPrefixList (pat l : List Char) : Bool :=
  match pat, l with
  | [], _ => true
  | _ :: _, [] => false
  | p :: ps, c :: cs => p == c && isPrefixList ps cs

/-- Model of Rust `str::contains` for a literal pattern: `pat` occurs as a
contiguous substring of `l`. -/
def containsSub (pat : List Char) : List Char → Bool
  | [] => isPrefixList pat []
  | c :: cs => isPrefixList pat (c :: cs) || containsSub pat cs

/-- Model of Rust `str::trim`: strip leading and trailing whitespace. -/
def trimChars (l : List Char) : List Char :=
  ((l.dropWhile Char.isWhitespace).reverse.dropWhile Char.isWhitespace).reverse

/-- Model of Rust `str::find(c)`: index of the first occurrence of `c`. -/
def findIdxChar (c : Char) : List Char → Option Nat
  | [] => none
  | x :: xs => if x == c then some 0 else (findIdxChar c xs).map (· + 1)

/-! ### `xet_integration.rs`: header parsing -/

/-- The double-quoted pattern `rel="xet-auth"` from
`parse_link_header_for_xet_auth`. -/
def relPatternDq : List Char := ("rel=\"xet-auth\"").data

/-- A single-quote character (written by code to keep the sources free of
stray quote characters). -/
def squote : Char := Char.ofNat 39

/-- The single-quoted pattern from `parse_link_header_for_xet_auth`. -/
def relPatternSq : List Char := ("rel=").data ++ squote :: ("xet-auth").data ++ [squote]

/-- The test `link_part.contains("rel=\"xet-auth\"") ||
link_part.contains("rel='xet-auth'")` from the source. -/
def hasXetAuthRel (part : List Char) : Bool :=
  containsSub relPatternDq part || containsSub relPatternSq part

/-- The loop body of `parse_link_header_for_xet_auth`, iterating over the
comma-separated parts.  A part that contains the relation and both angle
brackets returns the slice `part[url_start + 1 .. url_end]`; when the slice
bounds are inverted the Rust indexing panics, modelled by `Except.error ()`.
A matching part that lacks one of the brackets is skipped (the `if let`
chain falls through and the loop continues). -/
def parseLinkAux : List (List Char) → Except Unit (Option (List Char))
  | [] => Except.ok none
  | part :: rest =>
    let t := trimChars part
    if hasXetAuthRel t then
      match findIdxChar '<' t, findIdxChar '>' t with
      | some a, some b =>
        if a + 1 ≤ b then
          Except.ok (some ((t.drop (a + 1)).take (b - (a + 1))))
        else
          Except.error ()
      | some _, none => parseLinkAux rest
      | none, _ => parseLinkAux rest
    else
      parseLinkAux rest

/-- `parse_link_header_for_xet_auth` from `xet_integration.rs`. -/
def parseLinkHeaderForXetAuth (s : List Char) : Except Unit (Option (List Char)) :=
  parseLinkAux (splitOnChar ',' s)

/-- Model of the header map as seen through the getters the sources use.
Each field is `none` when the header is absent, `some none` when it is
present but `to_str()` fails (not valid visible ASCII), and `some (some v)`
when it is present with value `v`. -/
structure HeadersModel where
  xetHash : Option (Option String)
  link : Option (Option String)
  refreshRoute : Option (Option String)
  casUrl : Option (Option String)
  accessToken : Option (Option String)
  tokenExpiration : Option (Option String)
deriving DecidableEq

/-- `headers.get(name).and_then(|v| v.to_str().ok())`. -/
def getValidHeader (h : Option (Option String)) : Option String := h.bind id

/-- `XetFileData` from `xet_integration.rs`. -/
structure XetFileData where
  fileHash : String
  refreshRoute : String
deriving DecidableEq

/-- `parse_xet_file_data_from_headers` from `xet_integration.rs`.  Note the
x-xet-refresh-route fallback is consulted only when the `link` header is
absent or fails `to_str()`; when a parseable `link` header is present its
parse result is used directly (even when it is `None`). -/
def parseXetFileDataFromHeaders (h : HeadersModel) : Except Unit (Option XetFileData) :=
  match getValidHeader h.xetHash with
  | none => Except.ok none
  | some fileHash =>
    let refreshRouteRes : Except Unit (Option String) :=
      match h.link with
      | some (some linkStr) =>
        (parseLinkHeaderForXetAuth linkStr.data).map (fun o => o.map String.mk)
      | some none => Except.ok (getValidHeader h.refreshRoute)
      | none => Except.ok (getValidHeader h.refreshRoute)
    match refreshRouteRes with
    | Except.error e => Except.error e
    | Except.ok none => Except.ok none
    | Except.ok (some r) => Except.ok (some ⟨fileHash, r⟩)

/-- Model of Rust `str::parse::<u64>()`: an optional sign followed by at
least one ASCII digit, with the value bounded by `u64::MAX`. -/
def parseU64 (s : String) : Option Nat :=
  let l := s.data
  let digits := if l.head? == some ('+') then l.tail else l
  if !digits.isEmpty && digits.all Char.isDigit then
    let n := digits.foldl (fun acc c => acc * 10 + (c.toNat - 48)) 0
    if n ≤ U64MAX then some n else none
  else
    none

/-- `XetConnectionInfo` from `xet_integration.rs`. -/
structure XetConnectionInfo where
  endpoint : String
  accessToken : String
  expirationUnixEpoch : Nat
deriving DecidableEq

/-- `parse_xet_connection_info_from_headers` from `xet_integration.rs`. -/
def parseXetConnectionInfoFromHeaders (h : HeadersModel) : Option XetConnectionInfo :=
  match getValidHeader h.casUrl, getValidHeader h.accessToken,
      (getValidHeader h.tokenExpiration).bind parseU64 with
  | some e, some t, some exp => some ⟨e, t, exp⟩
  | _, _, _ => none

/-! ### HTTP response model and `send_with_retry` (`hf_adapter.rs`) -/

/-- A reqwest response as the core observes it: status code, headers, and
the optional `Content-Length`.  The status display is modelled by its
numeric code. -/
structure RespModel where
  status : Nat
  headers : HeadersModel
  contentLength : Option Nat
deriving DecidableEq

/-- The outcome of one `builder().send().await`: a response or a transport
error. -/
inductive SendOutcome where
  | ok (resp : RespModel)
  | err (msg : String)
deriving DecidableEq

/-- `reqwest::StatusCode::is_success`. -/
def isSuccessStatus (s : Nat) : Bool := 200 ≤ s && s ≤ 299

/-- `reqwest::StatusCode::is_redirection`. -/
def isRedirectStatus (s : Nat) : Bool := 300 ≤ s && s ≤ 399

/-- `MAX_HTTP_RETRIES` from `hf_adapter.rs`. -/
def MAX_HTTP_RETRIES : Nat := 3

/-- `RETRY_BACKOFF_MS` from `hf_adapter.rs`. -/
def RETRY_BACKOFF_MS : Nat := 200

/-- What `send_with_retry` produces: the final result, how many send
attempts were made, and the list of sleep durations (ms) performed between
attempts. -/
structure RetryOutcome where
  result : Except String RespModel
  attemptsMade : Nat
  sleeps : List Nat
deriving DecidableEq

/-- The terminal failure message of `send_with_retry`:
`"{description} failed after {n} attempts: HTTP {status}"` for a response
failing the success predicate, and
`"{description} failed after {n} attempts: {err}"` for a transport error. -/
def retryFailureMessage (description : String) (attemptsMade : Nat) : SendOutcome → String
  | SendOutcome.ok resp =>
    description ++ " failed after " ++ toString attemptsMade ++ " attempts: HTTP " ++
      toString resp.status
  | SendOutcome.err msg =>
    description ++ " failed after " ++ toString attemptsMade ++ " attempts: " ++ msg

/-- The `for attempt in 0..=MAX_HTTP_RETRIES` loop of `send_with_retry`.
`attempts a` is the outcome of the send on attempt index `a`; a successful
send whose response fails `isSuccess`, or a transport error, retries after
sleeping `RETRY_BACKOFF_MS * (attempt + 1)` unless this was the final
attempt, in which case the error message carries the attempt count and the
last status or error.  The fuel counts the remaining loop iterations; the
fuel-exhausted case is the `unreachable!` after the loop. -/
def sendWithRetryGo (attempts : Nat → SendOutcome) (description : String)
    (isSuccess : RespModel → Bool) : Nat → Nat → RetryOutcome
  | _, 0 => ⟨Except.error "unreachable", 0, []⟩
  | attempt, fuel + 1 =>
    match attempts attempt with
    | SendOutcome.ok resp =>
      if isSuccess resp then
        ⟨Except.ok resp, attempt + 1, []⟩
      else if attempt == MAX_HTTP_RETRIES then
        ⟨Except.error (retryFailureMessage description (attempt + 1) (SendOutcome.ok resp)),
         attempt + 1, []⟩
      else
        let k := sendWithRetryGo attempts description isSuccess (attempt + 1) fuel
        ⟨k.result, k.attemptsMade, RETRY_BACKOFF_MS * (attempt + 1) :: k.sleeps⟩
    | SendOutcome.err msg =>
      if attempt == MAX_HTTP_RETRIES then
        ⟨Except.error (retryFailureMessage description (attempt + 1) (SendOutcome.err msg)),
         attempt + 1, []⟩
      else
        let k := sendWithRetryGo attempts description isSuccess (attempt + 1) fuel
        ⟨k.result, k.attemptsMade, RETRY_BACKOFF_MS * (attempt + 1) :: k.sleeps⟩

/-- `send_with_retry` from `hf_adapter.rs`. -/
def sendWithRetry (attempts : Nat → SendOutcome) (description : String)
    (isSuccess : RespModel → Bool) : RetryOutcome :=
  sendWithRetryGo attempts description isSuccess 0 (MAX_HTTP_RETRIES + 1)

/-- An attempt counts as failed when the send errored or the response fails
the supplied success predicate. -/
def attemptFails (isSuccess : RespModel → Bool) : SendOutcome → Bool
  | SendOutcome.ok resp => !isSuccess resp
  | SendOutcome.err _ => true

/-- The status-or-transport-error text that the terminal retry failure
embeds in its message. -/
def describeFailure : SendOutcome → String
  | SendOutcome.ok resp => "HTTP " ++ toString resp.status
  | SendOutcome.err msg => msg

/-- The success predicate used for the tree listing and the body GET
(`resp.status().is_success()`). -/
def respIsSuccess (resp : RespModel) : Bool := isSuccessStatus resp.status

/-- The success predicate used for the HEAD probe
(`resp.status().is_success() || resp.status().is_redirection()`). -/
def headIsSuccess (resp : RespModel) : Bool :=
  isSuccessStatus resp.status || isRedirectStatus resp.status

/-! ### `XetTokenManager::refresh_xet_connection_info` (`xet_integration.rs`) -/

/-- `XetTokenManager::is_token_valid`: the cached connection (whatever its
route) must expire more than 60 seconds from now. -/
def isTokenValid (now : Nat) (cached : Option (XetConnectionInfo × String)) : Bool :=
  match cached with
  | some (info, _) => now + 60 < info.expirationUnixEpoch
  | none => false

/-- Result of one `refresh_xet_connection_info` call: the token manager
cache afterwards, the returned value, and how many HTTP GETs were issued. -/
structure RefreshResult where
  newCache : Option (XetConnectionInfo × String)
  result : Except String XetConnectionInfo
  getCount : Nat
deriving DecidableEq

/-- The GET branch of `refresh_xet_connection_info`: one GET to the refresh
route; a transport error surfaces the anyhow context message, a non-success
status surfaces the status, missing connection headers are fatal, and a
parsed response is cached under the request route. -/
def refreshViaGet (cached : Option (XetConnectionInfo × String)) (route : String)
    (getOutcome : SendOutcome) : RefreshResult :=
  match getOutcome with
  | SendOutcome.err _ => ⟨cached, Except.error "Failed to fetch XET connection info", 1⟩
  | SendOutcome.ok resp =>
    if !isSuccessStatus resp.status then
      ⟨cached, Except.error ("Failed to get XET token: HTTP " ++ toString resp.status), 1⟩
    else
      match parseXetConnectionInfoFromHeaders resp.headers with
      | none => ⟨cached, Except.error "XET headers not found in response", 1⟩
      | some ci => ⟨some (ci, route), Except.ok ci, 1⟩

/-- `refresh_xet_connection_info` from `xet_integration.rs`: return the
cached connection when it is still valid and belongs to the same refresh
route; otherwise go through the GET branch. -/
def refreshXetConnectionInfo (now : Nat) (cached : Option (XetConnectionInfo × String))
    (getOutcome : SendOutcome) (fileData : XetFileData) : RefreshResult :=
  if isTokenValid now cached then
    match cached with
    | some (info, cachedRoute) =>
      if cachedRoute == fileData.refreshRoute then
        ⟨cached, Except.ok info, 0⟩
      else
        refreshViaGet cached fileData.refreshRoute getOutcome
    | none => refreshViaGet cached fileData.refreshRoute getOutcome
  else
    refreshViaGet cached fileData.refreshRoute getOutcome

/-- The condition under which `refresh_xet_connection_info` answers from the
cache: the cached token is valid and its route equals the requested one. -/
def refreshCacheHit (now : Nat) (cached : Option (XetConnectionInfo × String))
    (fileData : XetFileData) : Bool :=
  isTokenValid now cached &&
    (match cached with
     | some (_, route) => route == fileData.refreshRoute
     | none => false)

/-! ### `progress.rs`: the throttled progress aggregator

The callback invocation itself has no effect on the recorded state, so the
embedding keeps only the mutable `OperationProgressState`; time is an
explicit `now : Nat` parameter (milliseconds) standing in for `Instant`. -/

/-- `XetProgressPhase` from `progress.rs`. -/
inductive PhaseModel where
  | scanning
  | downloading
  | finalizing
deriving DecidableEq

/-- `FileProgress` from `progress.rs` (`#[derive(Default)]` gives `(0, 0)`). -/
structure FileProgressModel where
  totalBytes : Nat
  completedBytes : Nat
deriving DecidableEq

instance : Inhabited FileProgressModel := ⟨⟨0, 0⟩⟩

/-- `OperationProgressState` from `progress.rs`, with the `HashMap` replaced
by an association list (first occurrence wins, no duplicate keys are ever
created by the operations). -/
structure OperationProgressState where
  phase : PhaseModel
  totalBytes : Nat
  completedBytes : Nat
  files : List (String × FileProgressModel)
  totalFilesHint : Option Nat
  lastEmit : Option Nat
deriving DecidableEq

/-- The fresh state built by `OperationProgress::new`. -/
def initialProgressState : OperationProgressState :=
  ⟨PhaseModel.scanning, 0, 0, [], none, none⟩

/-- Lookup in the file map. -/
def lookupFile (files : List (String × FileProgressModel)) (name : String) :
    Option FileProgressModel :=
  match files with
  | [] => none
  | (k, v) :: rest => if k == name then some v else lookupFile rest name

/-- `state.files.entry(name).or_default()` followed by a mutation `f` of the
entry: update the first binding of `name`, or append a default-initialised
one. -/
def updEntry (files : List (String × FileProgressModel)) (name : String)
    (f : FileProgressModel → FileProgressModel) : List (String × FileProgressModel) :=
  match files with
  | [] => [(name, f ⟨0, 0⟩)]
  | (k, v) :: rest =>
    if k == name then (k, f v) :: rest else (k, v) :: updEntry rest name f

/-- Rust `u64::saturating_add`. -/
def u64SatAdd (a b : Nat) : Nat := min (a + b) U64MAX

/-- `OperationProgress::emit` as far as the recorded state is concerned: a
non-forced emit inside the throttle window is skipped; otherwise `last_emit`
is stamped and the callback runs (outside the lock).  Counters are only
read. -/
def emitStep (throttle now : Nat) (force : Bool) (s : OperationProgressState) :
    OperationProgressState :=
  if !force && (match s.lastEmit with
                | some last => now - last < throttle
                | none => false) then
    s
  else
    { s with lastEmit := some now }

/-- `OperationProgress::set_phase`. -/
def setPhase (throttle now : Nat) (phase : PhaseModel) (force : Bool)
    (s : OperationProgressState) : OperationProgressState :=
  let s := if s.phase ≠ phase then { s with phase := phase } else s
  emitStep throttle now force s

/-- `OperationProgress::set_total_hint`: the files hint is overwritten, the
byte total only raised. -/
def setTotalHint (totalFiles totalBytes : Nat) (s : OperationProgressState) :
    OperationProgressState :=
  let s := { s with totalFilesHint := some totalFiles }
  if totalBytes > s.totalBytes then { s with totalBytes := totalBytes } else s

/-- `OperationProgress::set_total_bytes`. -/
def setTotalBytes (totalBytes : Nat) (s : OperationProgressState) :
    OperationProgressState :=
  if totalBytes > s.totalBytes then { s with totalBytes := totalBytes } else s

/-- `OperationProgress::set_completed_bytes`. -/
def setCompletedBytes (completedBytes : Nat) (s : OperationProgressState) :
    OperationProgressState :=
  if completedBytes > s.completedBytes then { s with completedBytes := completedBytes } else s

/-- `OperationProgress::ensure_file_entry`. -/
def ensureFileEntry (name : String) (totalBytes : Nat) (s : OperationProgressState) :
    OperationProgressState :=
  { s with files := updEntry s.files name (fun e =>
      if totalBytes > 0 then { e with totalBytes := max e.totalBytes totalBytes } else e) }

/-- `OperationProgress::update_file_absolute`: raise the per-file total,
raise the per-file completed count, add the completed delta (saturating)
into the aggregate, then emit. -/
def updateFileAbsolute (throttle now : Nat) (name : String) (completed total : Nat)
    (force : Bool) (s : OperationProgressState) : OperationProgressState :=
  let old := (lookupFile s.files name).getD ⟨0, 0⟩
  let e1 := if total > 0 then { old with totalBytes := max old.totalBytes total } else old
  let e2 := if completed > e1.completedBytes then { e1 with completedBytes := completed } else e1
  let newCompleted :=
    if completed > old.completedBytes then
      u64SatAdd s.completedBytes (completed - old.completedBytes)
    else
      s.completedBytes
  emitStep throttle now force
    { s with files := updEntry s.files name (fun _ => e2), completedBytes := newCompleted }

/-- One `item_updates` element of a CAS tracker batch. -/
structure TrackingItemUpdate where
  itemName : String
  bytesCompleted : Nat
  totalBytes : Nat
deriving DecidableEq

/-- A `progress_tracking::ProgressUpdate` batch as `apply_tracking_update`
consumes it. -/
structure TrackingUpdateModel where
  totalTransferBytes : Nat
  totalTransferBytesCompleted : Nat
  itemUpdates : List TrackingItemUpdate
deriving DecidableEq

/-- `OperationProgress::apply_tracking_update`. -/
def applyTrackingUpdate (throttle now : Nat) (u : TrackingUpdateModel)
    (s : OperationProgressState) : OperationProgressState :=
  let s := setTotalBytes u.totalTransferBytes s
  let s := setCompletedBytes u.totalTransferBytesCompleted s
  u.itemUpdates.foldl
    (fun st item =>
      updateFileAbsolute throttle now item.itemName item.bytesCompleted item.totalBytes false st)
    s

/-- `OperationProgress::finalize`. -/
def finalizeProgress (throttle now : Nat) (s : OperationProgressState) :
    OperationProgressState :=
  setPhase throttle now PhaseModel.finalizing true s

/-- The public operations on a progress operation handle, as named in the
claim. -/
inductive ProgressOp where
  | setPhase (phase : PhaseModel) (force : Bool)
  | setTotalHint (totalFiles totalBytes : Nat)
  | setTotalBytes (totalBytes : Nat)
  | setCompletedBytes (completedBytes : Nat)
  | ensureFileEntry (name : String) (totalBytes : Nat)
  | updateFileAbsolute (name : String) (completed total : Nat) (force : Bool)
  | applyTrackingUpdate (u : TrackingUpdateModel)
  | finalize
deriving DecidableEq

/-- Dispatch a progress operation. -/
def applyProgressOp (throttle now : Nat) : ProgressOp → OperationProgressState →
    OperationProgressState
  | ProgressOp.setPhase p force => setPhase throttle now p force
  | ProgressOp.setTotalHint f b => setTotalHint f b
  | ProgressOp.setTotalBytes b => setTotalBytes b
  | ProgressOp.setCompletedBytes b => setCompletedBytes b
  | ProgressOp.ensureFileEntry n t => ensureFileEntry n t
  | ProgressOp.updateFileAbsolute n c t force => updateFileAbsolute throttle now n c t force
  | ProgressOp.applyTrackingUpdate u => applyTrackingUpdate throttle now u
  | ProgressOp.finalize => finalizeProgress throttle now

/-- Well-formedness of the `u64` arguments carried by an operation (every
value a real caller can pass fits in 64 bits; only the aggregated completed
count ever feeds `saturating_add`, so only that field matters). -/
def progressOpWF : ProgressOp → Bool
  | ProgressOp.applyTrackingUpdate u => u.totalTransferBytesCompleted ≤ U64MAX
  | ProgressOp.setCompletedBytes b => b ≤ U64MAX
  | _ => true

/-- Pointwise order on per-file counters. -/
def fileLe (e f : FileProgressModel) : Prop :=
  e.totalBytes ≤ f.totalBytes ∧ e.completedBytes ≤ f.completedBytes

/-- The monotonicity relation of the claim: the aggregate byte counters and
every recorded per-file counter pair may only grow. -/
def progressLe (s t : OperationProgressState) : Prop :=
  s.totalBytes ≤ t.totalBytes ∧ s.completedBytes ≤ t.completedBytes ∧
  ∀ name e, lookupFile s.files name = some e →
    ∃ f, lookupFile t.files name = some f ∧ fileLe e f

/-! ### `hf_adapter.rs`: the download coordinator

Every effect the coordinator performs is drawn from an environment record
and logged into an event trace, in program order.  Cancellation polls are
numbered: poll number `i` reads `cancel i` (with no token installed the
Rust helper `is_cancelled` returns `false` for every poll, which is the
environment with `cancel = fun _ => false`). -/

/-- Observable actions of the coordinator, in program order. -/
inductive Event where
  | pollCancel (res : Bool)
  | netList
  | netHead
  | netGet
  | netRefresh
  | netCas
  | acquirePermit
  | fsCreateDir
  | fsCreateFile
  | fsWrite (len : Nat)
  | progPhase (phase : PhaseModel) (force : Bool)
  | progTotalHint (files total : Nat)
  | progEnsure (name : String) (total : Nat)
  | progUpdate (name : String) (completed total : Nat) (force : Bool)
  | progFinalize
deriving DecidableEq

/-- Network traffic events. -/
def isNetEvent : Event → Bool
  | Event.netList => true
  | Event.netHead => true
  | Event.netGet => true
  | Event.netRefresh => true
  | Event.netCas => true
  | _ => false

/-- Cancellation poll events. -/
def isPollEvent : Event → Bool
  | Event.pollCancel _ => true
  | _ => false

/-- `HfFileInfo` from `hf_adapter.rs`. -/
structure HfFileInfo where
  path : String
  hash : String
  size : Nat
  xetHash : Option String
deriving DecidableEq

/-- One entry of the HF tree-listing JSON array. -/
structure TreeItem where
  itemType : String
  oid : String
  size : Nat
  path : String
  xetHash : Option String
deriving DecidableEq

/-- Outcome of a single download attempt. -/
inductive DownResult where
  | ok (path : String)
  | err (msg : String)
  | panic
deriving DecidableEq

/-- `PathBuf::push` for a relative component, on the '/'-joined string model
of paths. -/
def pathJoin (a b : String) : String :=
  if a == "" then b else a ++ "/" ++ b

/-- `repo_id.replace('/', "--")`. -/
def replaceSlashTwoDash (s : String) : String :=
  String.mk (s.data.foldr (fun c acc => if c == '/' then '-' :: '-' :: acc else c :: acc) [])

/-- `determine_destination` from `hf_adapter.rs`. -/
def determineDestination (localDir : Option String) (cacheDir : Option String)
    (repoId revision filename : String) : String :=
  match localDir with
  | some d => pathJoin d filename
  | none =>
    match cacheDir with
    | some cd => pathJoin (pathJoin (pathJoin cd (replaceSlashTwoDash repoId)) revision) filename
    | none => filename

/-- `Path::parent` on the string model: drop the final '/'-separated
component; a single-component relative path has the empty parent, for which
`create_dir_all` is a no-op, so it is modelled as `none`. -/
def parentDir (s : String) : Option String :=
  match (splitOnChar '/' s.data).dropLast with
  | [] => none
  | parts => some (String.intercalate "/" (parts.map String.mk))

/-- Environment of the dedup path of one file: the token-manager state and
the outcomes of the external CAS collaborators (`XetDownloader::new` and the
chunk reconstruction, which are outside this crate). -/
structure XetPathEnv where
  tmNow : Nat
  tmCached : Option (XetConnectionInfo × String)
  refreshGetOutcome : SendOutcome
  downloaderNew : Except String Unit
  casDownload : Except String Nat
deriving DecidableEq

/-- Environment of one `download_file_with_info` call. -/
structure DfiEnv where
  cancel : Nat → Bool
  createDirResult : Except String Unit
  destExists : Bool
  destMetadataLen : Option Nat
  noRedirectBuild : Except String Unit
  headAttempts : Nat → SendOutcome
  xet : XetPathEnv
  getAttempts : Nat → SendOutcome
  fileCreate : Except String Unit
  chunks : List (Except String Nat)
  writeResult : Nat → Except String Unit
  flushResult : Except String Unit

/-- `download_with_xet` from `hf_adapter.rs`: poll, refresh the connection
info through the token manager (a GET only on a cache miss), build the CAS
downloader, register the file entry, poll again, reconstruct via CAS, and
mark the file complete.  Returns the result, the event trace, and the next
cancellation poll number.  (The token-manager cache mutation is captured by
`RefreshResult.newCache`; it does not influence this call's result.) -/
def downloadWithXet (env : DfiEnv) (pollIdx : Nat) (fileName destPath : String)
    (expectedSize : Nat) (prog : Bool) (xfd : XetFileData) :
    DownResult × List Event × Nat :=
  if env.cancel pollIdx then
    (DownResult.err "Download cancelled", [Event.pollCancel true], pollIdx + 1)
  else
    let e0 := [Event.pollCancel false]
    let rres := refreshXetConnectionInfo env.xet.tmNow env.xet.tmCached
      env.xet.refreshGetOutcome xfd
    let e1 := e0 ++ (if rres.getCount == 0 then [] else [Event.netRefresh])
    match rres.result with
    | Except.error m => (DownResult.err m, e1, pollIdx + 1)
    | Except.ok _ =>
      match env.xet.downloaderNew with
      | Except.error m => (DownResult.err m, e1, pollIdx + 1)
      | Except.ok _ =>
        let e2 := e1 ++ (if prog then [Event.progEnsure fileName expectedSize] else [])
        if env.cancel (pollIdx + 1) then
          (DownResult.err "Download cancelled", e2 ++ [Event.pollCancel true], pollIdx + 2)
        else
          let e3 := e2 ++ [Event.pollCancel false, Event.netCas]
          match env.xet.casDownload with
          | Except.error m => (DownResult.err m, e3, pollIdx + 2)
          | Except.ok _ =>
            (DownResult.ok destPath,
             e3 ++ (if prog then [Event.progUpdate fileName expectedSize expectedSize true] else []),
             pollIdx + 2)

/-- The `while let Some(chunk) = stream.next().await` loop of the plain HTTP
download: accumulate the chunk into the file, polling cancellation between
chunks and reporting absolute progress; on a drained stream, flush and make
the final forced progress report. -/
def httpChunkLoop (env : DfiEnv) (filePath dest : String) (expectedTotal : Nat)
    (prog : Bool) : List (Except String Nat) → Nat → Nat → Nat → DownResult × List Event
  | [], _, downloaded, _ =>
    (match env.flushResult with
     | Except.error m => (DownResult.err m, [])
     | Except.ok _ =>
       (DownResult.ok dest,
        if prog then [Event.progUpdate filePath downloaded expectedTotal true] else []))
  | chunk :: rest, chunkIdx, downloaded, pollIdx =>
    match chunk with
    | Except.error m => (DownResult.err m, [])
    | Except.ok len =>
      let d := downloaded + len
      if env.cancel pollIdx then
        (DownResult.err "Download cancelled", [Event.pollCancel true])
      else
        match env.writeResult chunkIdx with
        | Except.error m => (DownResult.err m, [Event.pollCancel false, Event.fsWrite len])
        | Except.ok _ =>
          let pe := if prog then [Event.progUpdate filePath d expectedTotal false] else []
          let k := httpChunkLoop env filePath dest expectedTotal prog rest (chunkIdx + 1) d
            (pollIdx + 1)
          (k.1, Event.pollCancel false :: Event.fsWrite len :: pe ++ k.2)

/-- Lines 447-489 of `hf_adapter.rs`: the plain streaming HTTP download used
as primary path or as fallback after a dedup failure.  Polls cancellation,
GETs the resolve URL with retry, takes `Content-Length` (or the listing
size) as the expected total, creates the destination file, and streams the
body. -/
def plainHttpDownload (env : DfiEnv) (filePath dest : String) (fallbackSize : Nat)
    (prog : Bool) (pollIdx : Nat) : DownResult × List Event :=
  if env.cancel pollIdx then
    (DownResult.err "Download cancelled", [Event.pollCancel true])
  else
    let e0 := [Event.pollCancel false]
    let r := sendWithRetry env.getAttempts "download request" respIsSuccess
    let e1 := e0 ++ List.replicate r.attemptsMade Event.netGet
    match r.result with
    | Except.error m => (DownResult.err m, e1)
    | Except.ok resp =>
      let expectedTotal := resp.contentLength.getD fallbackSize
      let e2 := e1 ++ (if prog then [Event.progEnsure filePath expectedTotal] else [])
      match env.fileCreate with
      | Except.error m => (DownResult.err m, e2 ++ [Event.fsCreateFile])
      | Except.ok _ =>
        let k := httpChunkLoop env filePath dest expectedTotal prog env.chunks 0 0 (pollIdx + 1)
        (k.1, e2 ++ [Event.fsCreateFile] ++ k.2)

/-- `download_file_with_info` from `hf_adapter.rs`: poll cancellation,
resolve the destination, create its parent directory, short-circuit on a
cache hit (existing file of the expected size), otherwise HEAD-probe the
resolve URL without redirects, attempt the dedup path when the probe
advertises it and dedup is enabled (any dedup failure falls through), and
finish with the plain HTTP download. -/
def downloadFileWithInfo (env : DfiEnv) (cacheDir : Option String) (enableDedup : Bool)
    (repoId revision : String) (localDir : Option String) (fileInfo : HfFileInfo)
    (prog : Bool) (pollIdx : Nat) : DownResult × List Event :=
  if env.cancel pollIdx then
    (DownResult.err "Download cancelled", [Event.pollCancel true])
  else
    let e0 := [Event.pollCancel false]
    let destination := determineDestination localDir cacheDir repoId revision fileInfo.path
    let dirStep : Except String Unit × List Event :=
      match parentDir destination with
      | some _ => (env.createDirResult, [Event.fsCreateDir])
      | none => (Except.ok (), [])
    match dirStep with
    | (Except.error m, de) => (DownResult.err m, e0 ++ de)
    | (Except.ok _, de) =>
      let e1 := e0 ++ de
      let cacheHit := env.destExists &&
        (match env.destMetadataLen with
         | some len => len == fileInfo.size
         | none => false)
      if cacheHit then
        (DownResult.ok destination,
         e1 ++ (if prog then
            [Event.progEnsure fileInfo.path fileInfo.size,
             Event.progUpdate fileInfo.path fileInfo.size fileInfo.size true]
          else []))
      else
        match env.noRedirectBuild with
        | Except.error m => (DownResult.err m, e1)
        | Except.ok _ =>
          let hr := sendWithRetry env.headAttempts "head request" headIsSuccess
          let e2 := e1 ++ List.replicate hr.attemptsMade Event.netHead
          match hr.result with
          | Except.error m => (DownResult.err m, e2)
          | Except.ok headResp =>
            match parseXetFileDataFromHeaders headResp.headers with
            | Except.error _ => (DownResult.panic, e2)
            | Except.ok xetData =>
              match xetData, enableDedup with
              | some xfd, true =>
                let x := downloadWithXet env (pollIdx + 1) fileInfo.path destination
                  fileInfo.size prog xfd
                (match x.1 with
                 | DownResult.ok p => (DownResult.ok p, e2 ++ x.2.1)
                 | _ =>
                   let k := plainHttpDownload env fileInfo.path destination fileInfo.size
                     prog x.2.2
                   (k.1, e2 ++ x.2.1 ++ k.2))
              | _, _ =>
                let k := plainHttpDownload env fileInfo.path destination fileInfo.size
                  prog (pollIdx + 1)
                (k.1, e2 ++ k.2)

/-- Environment of one `download_file_with_cancel` call: the listing
outcomes followed by the per-file environment. -/
structure DfcEnv where
  listAttempts : Nat → SendOutcome
  listJson : Except String (List TreeItem)
  dfi : DfiEnv

/-- `list_files` from `hf_adapter.rs`: GET the tree with retry, decode the
JSON array, keep entries with `type == "file"`, and map them to
`HfFileInfo` (OID as the hash, carrying the optional XET hash). -/
def listFiles (env : DfcEnv) : Except String (List HfFileInfo) × List Event :=
  let r := sendWithRetry env.listAttempts "list files" respIsSuccess
  let ev := List.replicate r.attemptsMade Event.netList
  match r.result with
  | Except.error m => (Except.error m, ev)
  | Except.ok _ =>
    match env.listJson with
    | Except.error m => (Except.error m, ev)
    | Except.ok items =>
      (Except.ok ((items.filter (fun i => i.itemType == "file")).map
        (fun i => ⟨i.path, i.oid, i.size, i.xetHash⟩)), ev)

/-- `download_file_with_cancel` from `hf_adapter.rs`: phase Scanning, list
the tree, locate the descriptor (absence is an error), seed the progress
totals, run `download_file_with_info`, and finalize on success. -/
def downloadFileWithCancel (env : DfcEnv) (cacheDir : Option String) (enableDedup : Bool)
    (repoId filename : String) (revision : Option String) (localDir : Option String)
    (prog : Bool) : DownResult × List Event :=
  let rev := revision.getD "main"
  let e0 := if prog then [Event.progPhase PhaseModel.scanning true] else []
  let l := listFiles env
  match l.1 with
  | Except.error m => (DownResult.err m, e0 ++ l.2)
  | Except.ok files =>
    match files.find? (fun f => f.path == filename) with
    | none =>
      (DownResult.err ("File " ++ filename ++ " not found in repository"), e0 ++ l.2)
    | some fileInfo =>
      let e1 := e0 ++ l.2 ++
        (if prog then
          [Event.progTotalHint 1 fileInfo.size,
           Event.progPhase PhaseModel.downloading true,
           Event.progEnsure fileInfo.path fileInfo.size,
           Event.progUpdate fileInfo.path 0 fileInfo.size true]
         else [])
      let k := downloadFileWithInfo env.dfi cacheDir enableDedup repoId rev localDir
        fileInfo prog 0
      match k.1 with
      | DownResult.ok out =>
        (DownResult.ok out, e1 ++ k.2 ++ (if prog then [Event.progFinalize] else []))
      | other => (other, e1 ++ k.2)

/-- Environment of one snapshot worker task (the `async move` block of
`download_snapshot`): the semaphore acquisition outcome and the per-file
download environment. -/
structure WorkerEnv where
  acquire : Except String Unit
  dfi : DfiEnv

/-- The worker task body of `download_snapshot` (lines 297-315 of
`hf_adapter.rs`): acquire a semaphore permit, then poll the cancellation
token, then run the per-file download (whose entry point polls again). -/
def snapshotWorker (w : WorkerEnv) (cacheDir : Option String) (enableDedup : Bool)
    (repoId revision localDir : String) (file : HfFileInfo) (prog : Bool) :
    DownResult × List Event :=
  match w.acquire with
  | Except.error m => (DownResult.err m, [Event.acquirePermit])
  | Except.ok _ =>
    if w.dfi.cancel 0 then
      (DownResult.err "Download cancelled", [Event.acquirePermit, Event.pollCancel true])
    else
      let k := downloadFileWithInfo w.dfi cacheDir enableDedup repoId revision
        (some localDir) file prog 1
      (k.1, Event.acquirePermit :: Event.pollCancel false :: k.2)

/-- `min(max_concurrent, len(files))` lower-bounded at 1, as computed in
`download_snapshot`. -/
def snapshotPermits (maxConcurrent fileCount : Nat) : Nat :=
  min (max maxConcurrent 1) (max fileCount 1)

/-! ### `error.rs` and `ffi.rs`: the C-ABI surface -/

/-- The `XetErrorCode` enum from `error.rs`. -/
inductive XetErrorCodeModel where
  | ok
  | invalidConfig
  | authFailed
  | networkError
  | notFound
  | permissionDenied
  | checksumMismatch
  | cancelled
  | ioError
  | unknown
deriving DecidableEq

/-- The `#[repr(i32)]` discriminants of `XetErrorCode`. -/
def xetErrorCodeValue : XetErrorCodeModel → Int
  | XetErrorCodeModel.ok => 0
  | XetErrorCodeModel.invalidConfig => 1
  | XetErrorCodeModel.authFailed => 2
  | XetErrorCodeModel.networkError => 3
  | XetErrorCodeModel.notFound => 4
  | XetErrorCodeModel.permissionDenied => 5
  | XetErrorCodeModel.checksumMismatch => 6
  | XetErrorCodeModel.cancelled => 7
  | XetErrorCodeModel.ioError => 8
  | XetErrorCodeModel.unknown => 99

/-- The heap error struct the C ABI returns. -/
structure FfiError where
  code : Int
  message : String
deriving DecidableEq

/-- `XetError::from_anyhow` from `error.rs`: every anyhow error—whatever its
cause—is mapped to code `Unknown` with the Display text as message. -/
def fromAnyhow (message : String) : FfiError :=
  ⟨xetErrorCodeValue XetErrorCodeModel.unknown, message⟩

/-- The tail of `xet_download_file` in `ffi.rs` (after the null and UTF-8
checks pass): run the download on the runtime and marshal the outcome.
`some (err?, outPath?)` is a normal return (the out-parameter is written
only on success); `none` is a Rust panic crossing the C boundary. -/
def xetDownloadFileFfi (env : DfcEnv) (cacheDir : Option String) (enableDedup : Bool)
    (repoId filename : String) (revision : Option String) (localDir : Option String)
    (prog : Bool) : Option (Option FfiError × Option String) :=
  match (downloadFileWithCancel env cacheDir enableDedup repoId filename revision
      localDir prog).1 with
  | DownResult.ok path => some (none, some path)
  | DownResult.err m => some (some (fromAnyhow m), none)
  | DownResult.panic => none

/-- The `XetConfig` C struct after string conversion (`c_str_to_string`
yields `none` for a null pointer). -/
structure XetConfigModel where
  endpoint : Option String
  token : Option String
  cacheDirC : Option String
  maxConcurrentDownloads : Nat
  enableDedup : Bool
deriving DecidableEq

/-- The fields of `HfAdapter`/`XetClient` that creation determines. -/
structure XetClientModel where
  endpoint : String
  token : Option String
  cacheDir : Option String
  maxConcurrent : Nat
  enableDedup : Bool
deriving DecidableEq

/-- `HfAdapter::new` from `hf_adapter.rs`: building the default-header map
fails when the bearer token is not a valid header value
(`tokenHeaderOk`), and building the reqwest client can fail
(`clientBuildOk`); otherwise the adapter stores the five fields. -/
def hfAdapterNew (tokenHeaderOk : String → Bool) (clientBuildOk : Bool)
    (endpoint : String) (token : Option String) (cacheDir : Option String)
    (maxConcurrent : Nat) (enableDedup : Bool) : Option XetClientModel :=
  match token with
  | some t =>
    if tokenHeaderOk t then
      if clientBuildOk then some ⟨endpoint, token, cacheDir, maxConcurrent, enableDedup⟩
      else none
    else none
  | none =>
    if clientBuildOk then some ⟨endpoint, none, cacheDir, maxConcurrent, enableDedup⟩
    else none

/-- `xet_client_new` from `ffi.rs` for a non-null config: a zero
`max_concurrent_downloads` is replaced by 4, then `XetClient::new` defaults
the endpoint and delegates to `HfAdapter::new`; `None` models the null
return. -/
def xetClientNewModel (tokenHeaderOk : String → Bool) (clientBuildOk : Bool)
    (cfg : XetConfigModel) : Option XetClientModel :=
  let maxConcurrent :=
    if cfg.maxConcurrentDownloads > 0 then cfg.maxConcurrentDownloads else 4
  hfAdapterNew tokenHeaderOk clientBuildOk (cfg.endpoint.getD "https://huggingface.co")
    cfg.token cfg.cacheDirC maxConcurrent cfg.enableDedup

/-! ### Concrete environments used to evaluate the embedding -/

/-- A header map with no XET-related headers. -/
def noHeaders : HeadersModel := ⟨none, none, none, none, none, none⟩

/-- A plain 200 response without relevant headers. -/
def okResp : RespModel := ⟨200, noHeaders, none⟩

/-- A benign per-file environment: nothing cancelled, all filesystem calls
succeed, every send yields a 200 without XET headers, and the body is one
5-byte chunk. -/
def baseDfi : DfiEnv where
  cancel := fun _ => false
  createDirResult := Except.ok ()
  destExists := false
  destMetadataLen := none
  noRedirectBuild := Except.ok ()
  headAttempts := fun _ => SendOutcome.ok okResp
  xet := ⟨0, none, SendOutcome.ok okResp, Except.ok (), Except.ok 0⟩
  getAttempts := fun _ => SendOutcome.ok okResp
  fileCreate := Except.ok ()
  chunks := [Except.ok 5]
  writeResult := fun _ => Except.ok ()
  flushResult := Except.ok ()

/-- Environment of a download whose cancellation token returns `true` at the
first poll: the listing succeeds and finds `w.bin` (1 MiB). -/
def c1Env : DfcEnv :=
  ⟨fun _ => SendOutcome.ok okResp,
   Except.ok [⟨"file", "a1", 1048576, "w.bin", none⟩],
   { baseDfi with cancel := fun _ => true }⟩

/-- Environment of scenario S2: the listing finds `w.bin` of size 10 and the
destination already holds 10 bytes. -/
def c2Env : DfcEnv :=
  ⟨fun _ => SendOutcome.ok okResp,
   Except.ok [⟨"file", "a1", 10, "w.bin", none⟩],
   { baseDfi with destExists := true, destMetadataLen := some 10 }⟩

/-- HEAD-probe headers advertising dedup support via the `Link` header. -/
def c3Headers : HeadersModel :=
  ⟨some (some "deadbeef"),
   some (some "<https://hub/xet-auth>; rel=\"xet-auth\""), none, none, none, none⟩

/-- Environment of scenario S3: the HEAD probe advertises dedup, the token
refresh GET answers HTTP 500, and the plain GET streams one 5-byte chunk. -/
def c3Env : DfiEnv :=
  { baseDfi with
    headAttempts := fun _ => SendOutcome.ok ⟨302, c3Headers, none⟩,
    xet := ⟨0, none, SendOutcome.ok ⟨500, noHeaders, none⟩, Except.ok (), Except.ok 0⟩ }

/-- A snapshot worker whose semaphore acquisition succeeds, over the benign
per-file environment. -/
def c6Env : WorkerEnv := ⟨Except.ok (), baseDfi⟩

/-! ## Theorems -/

/-- Claim C10: for every call to `xet_client_new` with a non-null config
whose `max_concurrent_downloads` field is 0, the client is created with a
concurrency bound of 4 rather than rejecting the configuration or
using 0.  (Creation can still fail for unrelated reasons: a bearer token
that is not a valid header value, or a reqwest build failure.) -/
theorem claim_C10 (tokenHeaderOk : String → Bool) (clientBuildOk : Bool)
    (cfg : XetConfigModel) (hzero : cfg.maxConcurrentDownloads = 0)
    (htok : ∀ t, cfg.token = some t → tokenHeaderOk t = true)
    (hbuild : clientBuildOk = true) :
    ∃ c, xetClientNewModel tokenHeaderOk clientBuildOk cfg = some c ∧
      c.maxConcurrent = 4 := by
  cases htokv : cfg.token with
  | none =>
    refine ⟨⟨cfg.endpoint.getD "https://huggingface.co", none, cfg.cacheDirC, 4,
      cfg.enableDedup⟩, ?_, rfl⟩
    simp [xetClientNewModel, hfAdapterNew, hzero, htokv, hbuild]
  | some t =>
    have ht := htok t htokv
    refine ⟨⟨cfg.endpoint.getD "https://huggingface.co", some t, cfg.cacheDirC, 4,
      cfg.enableDedup⟩, ?_, rfl⟩
    simp [xetClientNewModel, hfAdapterNew, hzero, htokv, ht, hbuild]

/-- Witness for C10 at a concrete all-null config with
`max_concurrent_downloads = 0`. -/
theorem claim_C10_witness :
    ∃ c, xetClientNewModel (fun _ => true) true ⟨none, none, none, 0, false⟩ = some c ∧
      c.maxConcurrent = 4 :=
  claim_C10 (fun _ => true) true ⟨none, none, none, 0, false⟩ rfl
    (fun _ h => Option.noConfusion h) rfl

/-- Claim C4: for every outbound HTTP operation through `send_with_retry`
that always fails, exactly four attempts are made (one try plus three
retries), the sleeps between consecutive attempts are 200, 400 and 600 ms,
and the returned error message carries the last HTTP status or transport
error. -/
theorem claim_C4 (attempts : Nat → SendOutcome) (description : String)
    (isSuccess : RespModel → Bool)
    (hfail : ∀ a, a ≤ MAX_HTTP_RETRIES → attemptFails isSuccess (attempts a) = true) :
    (sendWithRetry attempts description isSuccess).attemptsMade = 4 ∧
    (sendWithRetry attempts description isSuccess).sleeps = [200, 400, 600] ∧
    (sendWithRetry attempts description isSuccess).result =
      Except.error (retryFailureMessage description 4 (attempts 3)) := by
  have h0 := hfail 0 (by decide)
  have h1 := hfail 1 (by decide)
  have h2 := hfail 2 (by decide)
  have h3 := hfail 3 (by decide)
  unfold sendWithRetry
  cases ho0 : attempts 0 <;> rw [ho0] at h0 <;>
    cases ho1 : attempts 1 <;> rw [ho1] at h1 <;>
    cases ho2 : attempts 2 <;> rw [ho2] at h2 <;>
    cases ho3 : attempts 3 <;> rw [ho3] at h3 <;>
    simp_all [sendWithRetryGo, attemptFails, MAX_HTTP_RETRIES, RETRY_BACKOFF_MS,
      retryFailureMessage]

/-- Witness for C4: a transport error on every attempt. -/
theorem claim_C4_witness :
    (∀ a, a ≤ MAX_HTTP_RETRIES →
      attemptFails respIsSuccess ((fun _ => SendOutcome.err "connection reset") a) = true) ∧
    (sendWithRetry (fun _ => SendOutcome.err "connection reset") "download request"
      respIsSuccess).attemptsMade = 4 ∧
    (sendWithRetry (fun _ => SendOutcome.err "connection reset") "download request"
      respIsSuccess).sleeps = [200, 400, 600] ∧
    (sendWithRetry (fun _ => SendOutcome.err "connection reset") "download request"
      respIsSuccess).result =
      Except.error (retryFailureMessage "download request" 4
        (SendOutcome.err "connection reset")) :=
  ⟨fun _ _ => rfl,
   claim_C4 (fun _ => SendOutcome.err "connection reset") "download request" respIsSuccess
     (fun _ _ => rfl)⟩

/-- `refreshViaGet` always issues exactly one GET. -/
theorem refreshViaGet_getCount (cached : Option (XetConnectionInfo × String))
    (route : String) (out : SendOutcome) :
    (refreshViaGet cached route out).getCount = 1 := by
  cases out with
  | err m => rfl
  | ok resp =>
    unfold refreshViaGet
    by_cases hs : isSuccessStatus resp.status
    · simp only [hs, Bool.not_true, Bool.false_eq_true, if_false]
      cases parseXetConnectionInfoFromHeaders resp.headers <;> rfl
    · simp [hs]

/-- On a cache miss, `refresh_xet_connection_info` goes through the GET
branch. -/
theorem refreshXet_miss (now : Nat) (cached : Option (XetConnectionInfo × String))
    (getOutcome : SendOutcome) (fd : XetFileData)
    (hmiss : refreshCacheHit now cached fd = false) :
    refreshXetConnectionInfo now cached getOutcome fd =
      refreshViaGet cached fd.refreshRoute getOutcome := by
  unfold refreshXetConnectionInfo
  unfold refreshCacheHit at hmiss
  cases hv : isTokenValid now cached with
  | false => simp [hv]
  | true =>
    rw [hv] at hmiss
    simp only [Bool.true_and] at hmiss
    cases cached with
    | none => simp
    | some p =>
      obtain ⟨info, route⟩ := p
      simp only at hmiss
      simp [hmiss]

/-- Claim C8: a refresh with a valid cached connection for the same route
returns the cache and issues no GET; otherwise exactly one GET to the
refresh route is issued, a successfully parsed response is cached and
returned, and missing connection headers produce an error. -/
theorem claim_C8 (now : Nat) (cached : Option (XetConnectionInfo × String))
    (getOutcome : SendOutcome) (fd : XetFileData) :
    (refreshCacheHit now cached fd = true →
      ∃ info, cached = some (info, fd.refreshRoute) ∧
        refreshXetConnectionInfo now cached getOutcome fd = ⟨cached, Except.ok info, 0⟩) ∧
    (refreshCacheHit now cached fd = false →
      (refreshXetConnectionInfo now cached getOutcome fd).getCount = 1 ∧
      (∀ resp, getOutcome = SendOutcome.ok resp → isSuccessStatus resp.status = true →
        parseXetConnectionInfoFromHeaders resp.headers = none →
        (refreshXetConnectionInfo now cached getOutcome fd).result =
          Except.error "XET headers not found in response" ∧
        (refreshXetConnectionInfo now cached getOutcome fd).newCache = cached) ∧
      (∀ resp ci, getOutcome = SendOutcome.ok resp → isSuccessStatus resp.status = true →
        parseXetConnectionInfoFromHeaders resp.headers = some ci →
        (refreshXetConnectionInfo now cached getOutcome fd).result = Except.ok ci ∧
        (refreshXetConnectionInfo now cached getOutcome fd).newCache =
          some (ci, fd.refreshRoute))) := by
  constructor
  · intro hhit
    unfold refreshCacheHit at hhit
    cases cached with
    | none => simp [isTokenValid] at hhit
    | some p =>
      obtain ⟨info, route⟩ := p
      simp only [Bool.and_eq_true, beq_iff_eq] at hhit
      obtain ⟨hvalid, hroute⟩ := hhit
      subst hroute
      refine ⟨info, rfl, ?_⟩
      unfold refreshXetConnectionInfo
      simp [hvalid]
  · intro hmiss
    rw [refreshXet_miss now cached getOutcome fd hmiss]
    refine ⟨refreshViaGet_getCount cached fd.refreshRoute getOutcome, ?_, ?_⟩
    · intro resp hout hs hparse
      subst hout
      simp [refreshViaGet, hs, hparse]
    · intro resp ci hout hs hparse
      subst hout
      simp [refreshViaGet, hs, hparse]

/-- Witness for C8: both the cache-hit case (no GET) and the cache-miss case
at a concrete environment. -/
theorem claim_C8_witness :
    (refreshCacheHit 100 (some (⟨"https://cas", "tok", 1000⟩, "https://hub/xet-auth"))
        ⟨"h", "https://hub/xet-auth"⟩ = true ∧
      refreshXetConnectionInfo 100 (some (⟨"https://cas", "tok", 1000⟩, "https://hub/xet-auth"))
        (SendOutcome.err "unused") ⟨"h", "https://hub/xet-auth"⟩ =
        ⟨some (⟨"https://cas", "tok", 1000⟩, "https://hub/xet-auth"),
         Except.ok ⟨"https://cas", "tok", 1000⟩, 0⟩) ∧
    (refreshCacheHit 100 none ⟨"h", "https://hub/xet-auth"⟩ = false ∧
      (refreshXetConnectionInfo 100 none (SendOutcome.ok ⟨200, noHeaders, none⟩)
        ⟨"h", "https://hub/xet-auth"⟩).result =
        Except.error "XET headers not found in response") := by
  constructor
  · refine ⟨by decide, ?_⟩
    obtain ⟨info, hcached, heq⟩ :=
      ((claim_C8 100 (some (⟨"https://cas", "tok", 1000⟩, "https://hub/xet-auth"))
        (SendOutcome.err "unused") ⟨"h", "https://hub/xet-auth"⟩).1 (by decide))
    rw [heq]
    cases hcached
    rfl
  · refine ⟨by decide, ?_⟩
    exact (((claim_C8 100 none (SendOutcome.ok ⟨200, noHeaders, none⟩)
      ⟨"h", "https://hub/xet-auth"⟩).2 (by decide)).2.1 ⟨200, noHeaders, none⟩ rfl
      (by decide) rfl).1

/-- When no part carries the xet-auth relation, the loop falls through to
`None`. -/
theorem parseLinkAux_none (parts : List (List Char))
    (h : ∀ p ∈ parts, hasXetAuthRel (trimChars p) = false) :
    parseLinkAux parts = Except.ok none := by
  induction parts with
  | nil => rfl
  | cons p rest ih =>
    have hp := h p (List.mem_cons_self p rest)
    simp only [parseLinkAux, hp, Bool.false_eq_true, if_false]
    exact ih (fun q hq => h q (List.mem_cons_of_mem p hq))

/-- The loop returns the bracket-delimited slice of the first matching part,
provided that part is well formed (its first '<' strictly precedes its
first '>'). -/
theorem parseLinkAux_found (pre : List (List Char)) (part : List Char)
    (post : List (List Char)) (a b : Nat)
    (hpre : ∀ q ∈ pre, hasXetAuthRel (trimChars q) = false)
    (hm : hasXetAuthRel (trimChars part) = true)
    (ha : findIdxChar '<' (trimChars part) = some a)
    (hb : findIdxChar '>' (trimChars part) = some b)
    (hab : a + 1 ≤ b) :
    parseLinkAux (pre ++ part :: post) =
      Except.ok (some (((trimChars part).drop (a + 1)).take (b - (a + 1)))) := by
  induction pre with
  | nil =>
    simp only [List.nil_append, parseLinkAux, hm, if_true, ha, hb, hab, if_pos]
  | cons q rest ih =>
    have hq := hpre q (List.mem_cons_self q rest)
    simp only [List.cons_append, parseLinkAux, hq, Bool.false_eq_true, if_false]
    exact ih (fun r hr => hpre r (List.mem_cons_of_mem q hr))

/-- Claim C9: splitting the Link header on commas, if no part contains an
xet-auth relation the parser returns `None`; and if the first part carrying
the relation (double or single quotes, case-sensitive) delimits a URL by
`<…>`, exactly that URL is returned. -/
theorem claim_C9 (s : List Char) :
    ((∀ p ∈ splitOnChar ',' s, hasXetAuthRel (trimChars p) = false) →
      parseLinkHeaderForXetAuth s = Except.ok none) ∧
    (∀ pre part post a b, splitOnChar ',' s = pre ++ part :: post →
      (∀ q ∈ pre, hasXetAuthRel (trimChars q) = false) →
      hasXetAuthRel (trimChars part) = true →
      findIdxChar '<' (trimChars part) = some a →
      findIdxChar '>' (trimChars part) = some b →
      a + 1 ≤ b →
      parseLinkHeaderForXetAuth s =
        Except.ok (some (((trimChars part).drop (a + 1)).take (b - (a + 1))))) := by
  constructor
  · intro h
    exact parseLinkAux_none (splitOnChar ',' s) h
  · intro pre part post a b hsplit hpre hm ha hb hab
    unfold parseLinkHeaderForXetAuth
    rw [hsplit]
    exact parseLinkAux_found pre part post a b hpre hm ha hb hab

/-- Witness for C9 on the scenario-S6 inputs: the middle entry's URL `b` is
extracted, and an input without any xet-auth relation parses to `None`. -/
theorem claim_C9_witness :
    parseLinkHeaderForXetAuth
      ("<a>; rel=\"other\", <b>; rel=\"xet-auth\", <c>; rel=\"xet-reconstruction-info\"").data =
      Except.ok (some (("b").data)) ∧
    parseLinkHeaderForXetAuth ("<a>; rel=\"other\"").data = Except.ok none := by
  constructor
  · have h :=
      (claim_C9
        ("<a>; rel=\"other\", <b>; rel=\"xet-auth\", <c>; rel=\"xet-reconstruction-info\"").data).2
      [("<a>; rel=\"other\"").data] ((" <b>; rel=\"xet-auth\"").data)
      [(" <c>; rel=\"xet-reconstruction-info\"").data] 0 2
      (by decide) (by decide) (by decide) (by decide) (by decide) (by decide)
    rw [h]
    decide
  · exact (claim_C9 ("<a>; rel=\"other\"").data).1 (by decide)

/-- Claim C7 counterexample: headers with `x-xet-hash: h`, a parseable
`Link` header carrying no xet-auth entry, and `x-xet-refresh-route: r`.
The parser returns no dedup metadata at all instead of falling back to the
`x-xet-refresh-route` value `r`. -/
theorem claim_C7_counterexample :
    parseXetFileDataFromHeaders
      ⟨some (some "h"), some (some "<a>; rel=\"other\""), some (some "r"),
       none, none, none⟩ = Except.ok none ∧
    (Except.ok none ≠
      (Except.ok (some (⟨"h", "r"⟩ : XetFileData)) : Except Unit (Option XetFileData))) := by
  constructor
  · decide
  · decide

/-- Claim C7 amended: with `x-xet-hash` present, the `x-xet-refresh-route`
fallback is consulted only when the `Link` header is absent or not valid
text; when a parseable `Link` header is present but contains no xet-auth
entry, the parser returns no dedup metadata. -/
theorem claim_C7_amended (h : HeadersModel) (hash route : String)
    (hh : h.xetHash = some (some hash)) :
    ((h.link = none ∨ h.link = some none) → h.refreshRoute = some (some route) →
      parseXetFileDataFromHeaders h = Except.ok (some ⟨hash, route⟩)) ∧
    (∀ ls, h.link = some (some ls) → parseLinkHeaderForXetAuth ls.data = Except.ok none →
      parseXetFileDataFromHeaders h = Except.ok none) := by
  constructor
  · intro hlink hroute
    cases hlink with
    | inl habs =>
      simp [parseXetFileDataFromHeaders, getValidHeader, hh, habs, hroute]
    | inr hbad =>
      simp [parseXetFileDataFromHeaders, getValidHeader, hh, hbad, hroute]
  · intro ls hls hparse
    simp [parseXetFileDataFromHeaders, getValidHeader, hh, hls, hparse, Except.map]

/-- Witness for the amended C7: fallback applies with the Link header
absent, and a parseable Link header without xet-auth yields no metadata. -/
theorem claim_C7_witness :
    parseXetFileDataFromHeaders
      ⟨some (some "h"), none, some (some "r"), none, none, none⟩ =
      Except.ok (some ⟨"h", "r"⟩) ∧
    parseXetFileDataFromHeaders
      ⟨some (some "h"), some (some "rel=\"unrelated\""), some (some "r"),
       none, none, none⟩ = Except.ok none := by
  constructor
  · exact (claim_C7_amended ⟨some (some "h"), none, some (some "r"), none, none, none⟩
      "h" "r" rfl).1 (Or.inl rfl) rfl
  · exact (claim_C7_amended ⟨some (some "h"), some (some "rel=\"unrelated\""),
      some (some "r"), none, none, none⟩ "h" "r" rfl).2 "rel=\"unrelated\"" rfl (by decide)

/-- Lookup after an entry update: the updated name maps to the mutated
(old-or-default) entry, every other name is untouched. -/
theorem lookupFile_updEntry (files : List (String × FileProgressModel)) (name : String)
    (f : FileProgressModel → FileProgressModel) (q : String) :
    lookupFile (updEntry files name f) q =
      if q == name then some (f ((lookupFile files name).getD ⟨0, 0⟩))
      else lookupFile files q := by
  induction files with
  | nil =>
    by_cases h : q = name
    · subst h; simp [updEntry, lookupFile]
    · have h2 : ¬(name = q) := fun hh => h hh.symm
      simp [updEntry, lookupFile, h, h2]
  | cons kv rest ih =>
    obtain ⟨k, v⟩ := kv
    by_cases hk : k = name
    · subst hk
      by_cases hq : q = k
      · subst hq; simp [updEntry, lookupFile]
      · have h2 : ¬(k = q) := fun hh => hq hh.symm
        simp [updEntry, lookupFile, hq, h2]
    · have hk2 : (k == name) = false := by simp [hk]
      by_cases hq : q = k
      · subst hq
        have hqn : ¬(q = name) := fun hh => hk (hh ▸ rfl)
        simp [updEntry, lookupFile, hk2, hqn]
      · have h2 : ¬(k = q) := fun hh => hq hh.symm
        simp [updEntry, lookupFile, hk2, h2, ih]

/-- `emit` never changes the counters or the file map. -/
theorem emitStep_fields (t n : Nat) (force : Bool) (s : OperationProgressState) :
    (emitStep t n force s).totalBytes = s.totalBytes ∧
    (emitStep t n force s).completedBytes = s.completedBytes ∧
    (emitStep t n force s).files = s.files := by
  unfold emitStep; split <;> exact ⟨rfl, rfl, rfl⟩

/-- `progressLe` is reflexive. -/
theorem progressLe_refl (s : OperationProgressState) : progressLe s s :=
  ⟨le_refl _, le_refl _, fun _ e he => ⟨e, he, le_refl _, le_refl _⟩⟩

/-- `progressLe` is transitive. -/
theorem progressLe_trans {s t u : OperationProgressState}
    (h1 : progressLe s t) (h2 : progressLe t u) : progressLe s u := by
  obtain ⟨a1, b1, c1⟩ := h1
  obtain ⟨a2, b2, c2⟩ := h2
  refine ⟨le_trans a1 a2, le_trans b1 b2, ?_⟩
  intro name e he
  obtain ⟨f, hf, hef⟩ := c1 name e he
  obtain ⟨g, hg, hfg⟩ := c2 name f hf
  exact ⟨g, hg, le_trans hef.1 hfg.1, le_trans hef.2 hfg.2⟩

/-- A state whose counters and file map are unchanged is `progressLe`. -/
theorem progressLe_of_fields_eq {s t : OperationProgressState}
    (h1 : t.totalBytes = s.totalBytes) (h2 : t.completedBytes = s.completedBytes)
    (h3 : t.files = s.files) : progressLe s t := by
  refine ⟨by rw [h1], by rw [h2], ?_⟩
  intro name e he
  exact ⟨e, by rw [h3]; exact he, le_refl _, le_refl _⟩

/-- `set_phase` never moves a counter. -/
theorem setPhase_mono (t n : Nat) (p : PhaseModel) (force : Bool)
    (s : OperationProgressState) : progressLe s (setPhase t n p force s) := by
  unfold setPhase emitStep
  refine progressLe_of_fields_eq ?_ ?_ ?_ <;>
    · dsimp only
      split <;> split <;> rfl

/-- `set_total_hint` only raises the byte total. -/
theorem setTotalHint_mono (tf tb : Nat) (s : OperationProgressState) :
    progressLe s (setTotalHint tf tb s) := by
  unfold setTotalHint
  refine ⟨?_, ?_, ?_⟩
  · dsimp only
    split
    · exact Nat.le_of_lt (by assumption)
    · exact le_refl _
  · dsimp only
    split <;> exact le_refl _
  · intro name e he
    dsimp only
    split <;> exact ⟨e, he, le_refl _, le_refl _⟩

/-- `set_total_bytes` only raises the byte total. -/
theorem setTotalBytes_mono (tb : Nat) (s : OperationProgressState) :
    progressLe s (setTotalBytes tb s) := by
  unfold setTotalBytes
  refine ⟨?_, ?_, ?_⟩
  · split
    · exact Nat.le_of_lt (by assumption)
    · exact le_refl _
  · split <;> exact le_refl _
  · intro name e he
    split <;> exact ⟨e, he, le_refl _, le_refl _⟩

/-- `set_completed_bytes` only raises the completed count. -/
theorem setCompletedBytes_mono (cb : Nat) (s : OperationProgressState) :
    progressLe s (setCompletedBytes cb s) := by
  unfold setCompletedBytes
  refine ⟨?_, ?_, ?_⟩
  · split <;> exact le_refl _
  · split
    · exact Nat.le_of_lt (by assumption)
    · exact le_refl _
  · intro name e he
    split <;> exact ⟨e, he, le_refl _, le_refl _⟩

/-- `ensure_file_entry` only raises the per-file total. -/
theorem ensureFileEntry_mono (name : String) (tb : Nat) (s : OperationProgressState) :
    progressLe s (ensureFileEntry name tb s) := by
  refine ⟨le_refl _, le_refl _, ?_⟩
  intro q e he
  unfold ensureFileEntry
  dsimp only
  rw [lookupFile_updEntry]
  by_cases hq : q = name
  · subst hq
    rw [he]
    simp only [beq_self_eq_true, if_true, Option.getD_some]
    refine ⟨_, rfl, ?_, ?_⟩
    · dsimp only
      split
      · exact Nat.le_max_left _ _
      · exact le_refl _
    · dsimp only
      split <;> exact le_refl _
  · have h2 : (q == name) = false := by simp [hq]
    rw [h2]
    exact ⟨e, by simp [he], le_refl _, le_refl _⟩

/-- `emit` after a monotone step is still monotone. -/
theorem progressLe_emitStep {s u : OperationProgressState} (t n : Nat) (force : Bool)
    (h : progressLe s u) : progressLe s (emitStep t n force u) := by
  obtain ⟨f1, f2, f3⟩ := emitStep_fields t n force u
  obtain ⟨a, b, c⟩ := h
  refine ⟨by rw [f1]; exact a, by rw [f2]; exact b, ?_⟩
  intro name e he
  obtain ⟨g, hg, hfg⟩ := c name e he
  exact ⟨g, by rw [f3]; exact hg, hfg⟩

/-- `update_file_absolute` only raises the per-file counters and the
aggregate completed count (the latter provided the aggregate is a real
`u64` value, which `saturating_add` preserves). -/
theorem updateFileAbsolute_mono (t n : Nat) (name : String) (completed total : Nat)
    (force : Bool) (s : OperationProgressState) (hwf : s.completedBytes ≤ U64MAX) :
    progressLe s (updateFileAbsolute t n name completed total force s) := by
  unfold updateFileAbsolute
  dsimp only
  apply progressLe_emitStep
  refine ⟨Nat.le_refl _, ?_, ?_⟩
  · dsimp only
    split
    · unfold u64SatAdd
      exact le_min (Nat.le_add_right _ _) hwf
    · exact Nat.le_refl _
  · intro q e he
    dsimp only
    rw [lookupFile_updEntry]
    by_cases hq : q = name
    · subst hq
      rw [he]
      simp only [beq_self_eq_true, if_true, Option.getD_some]
      refine ⟨_, rfl, ?_, ?_⟩
      · split <;> split <;>
          first
          | exact Nat.le_refl _
          | exact Nat.le_max_left _ _
      · split <;> split <;>
          first
          | exact Nat.le_refl _
          | (rename_i hgt; exact Nat.le_of_lt hgt)
    · have h2 : (q == name) = false := by simp [hq]
      rw [h2]
      exact ⟨e, he, Nat.le_refl _, Nat.le_refl _⟩

/-- `update_file_absolute` keeps the aggregate within the `u64` range. -/
theorem updateFileAbsolute_wf (t n : Nat) (name : String) (completed total : Nat)
    (force : Bool) (s : OperationProgressState) (hwf : s.completedBytes ≤ U64MAX) :
    (updateFileAbsolute t n name completed total force s).completedBytes ≤ U64MAX := by
  unfold updateFileAbsolute
  dsimp only
  rw [(emitStep_fields t n force _).2.1]
  dsimp only
  split
  · exact min_le_right _ _
  · exact hwf

/-- `set_total_bytes` does not touch the completed count. -/
theorem setTotalBytes_completed (tb : Nat) (s : OperationProgressState) :
    (setTotalBytes tb s).completedBytes = s.completedBytes := by
  unfold setTotalBytes; split <;> rfl

/-- `set_completed_bytes` keeps the aggregate within the `u64` range when
fed a `u64` value. -/
theorem setCompletedBytes_wf (cb : Nat) (s : OperationProgressState)
    (hcb : cb ≤ U64MAX) (hwf : s.completedBytes ≤ U64MAX) :
    (setCompletedBytes cb s).completedBytes ≤ U64MAX := by
  unfold setCompletedBytes
  split
  · exact hcb
  · exact hwf

/-- The item loop of `apply_tracking_update` is monotone and keeps the
aggregate within the `u64` range. -/
theorem foldUpdates_mono (t n : Nat) (items : List TrackingItemUpdate)
    (s : OperationProgressState) (hwf : s.completedBytes ≤ U64MAX) :
    progressLe s (items.foldl (fun st item =>
      updateFileAbsolute t n item.itemName item.bytesCompleted item.totalBytes false st) s) ∧
    (items.foldl (fun st item =>
      updateFileAbsolute t n item.itemName item.bytesCompleted item.totalBytes false st)
        s).completedBytes ≤ U64MAX := by
  induction items generalizing s with
  | nil => exact ⟨progressLe_refl s, hwf⟩
  | cons item rest ih =>
    simp only [List.foldl_cons]
    have h1 := updateFileAbsolute_mono t n item.itemName item.bytesCompleted
      item.totalBytes false s hwf
    have h2 := updateFileAbsolute_wf t n item.itemName item.bytesCompleted
      item.totalBytes false s hwf
    obtain ⟨ha, hb⟩ := ih _ h2
    exact ⟨progressLe_trans h1 ha, hb⟩

/-- Claim C5: every operation on a progress operation handle leaves
`total_bytes`, `completed_bytes`, and every per-file
`(total_bytes, completed_bytes)` pair at values greater than or equal to
their previous ones; no recorded counter ever decreases. -/
theorem claim_C5 (throttle now : Nat) (op : ProgressOp) (s : OperationProgressState)
    (hwf : s.completedBytes ≤ U64MAX) (hop : progressOpWF op = true) :
    progressLe s (applyProgressOp throttle now op s) := by
  cases op with
  | setPhase p force => exact setPhase_mono throttle now p force s
  | setTotalHint tf tb => exact setTotalHint_mono tf tb s
  | setTotalBytes tb => exact setTotalBytes_mono tb s
  | setCompletedBytes cb => exact setCompletedBytes_mono cb s
  | ensureFileEntry name tb => exact ensureFileEntry_mono name tb s
  | updateFileAbsolute name c tb force =>
    exact updateFileAbsolute_mono throttle now name c tb force s hwf
  | applyTrackingUpdate u =>
    have hcb : u.totalTransferBytesCompleted ≤ U64MAX := by
      simpa [progressOpWF] using hop
    unfold applyProgressOp applyTrackingUpdate
    have m1 := setTotalBytes_mono u.totalTransferBytes s
    have m2 := setCompletedBytes_mono u.totalTransferBytesCompleted
      (setTotalBytes u.totalTransferBytes s)
    have wf1 : (setTotalBytes u.totalTransferBytes s).completedBytes ≤ U64MAX := by
      rw [setTotalBytes_completed]; exact hwf
    have wf2 := setCompletedBytes_wf u.totalTransferBytesCompleted
      (setTotalBytes u.totalTransferBytes s) hcb wf1
    have m3 := (foldUpdates_mono throttle now u.itemUpdates
      (setCompletedBytes u.totalTransferBytesCompleted
        (setTotalBytes u.totalTransferBytes s)) wf2).1
    exact progressLe_trans (progressLe_trans m1 m2) m3
  | finalize =>
    exact setPhase_mono throttle now PhaseModel.finalizing true s

/-- Whatever the environment, the per-file download's first event is its
entry cancellation poll. -/
theorem downloadFileWithInfo_trace_head (env : DfiEnv) (cd : Option String)
    (ed : Bool) (r rv : String) (ld : Option String) (fi : HfFileInfo) (p : Bool)
    (i : Nat) :
    ((downloadFileWithInfo env cd ed r rv ld fi p i).2).head? =
      some (Event.pollCancel (env.cancel i)) := by
  unfold downloadFileWithInfo
  cases hc : env.cancel i with
  | true => simp
  | false =>
    simp only [Bool.false_eq_true, if_false]
    repeat' split
    all_goals simp

/-- Claim C6 counterexample: in the snapshot worker's concrete trace the
cancellation token is polled, a permit is acquired, but no poll precedes
the acquisition — the first poll happens only after the permit is held. -/
theorem claim_C6_counterexample :
    (((snapshotWorker c6Env none false "org/model" "main" "/tmp/out"
        ⟨"w.bin", "a1", 5, none⟩ false).2.takeWhile
        (fun e => !(e == Event.acquirePermit))).any isPollEvent = false) ∧
    ((snapshotWorker c6Env none false "org/model" "main" "/tmp/out"
        ⟨"w.bin", "a1", 5, none⟩ false).2.any
        (fun e => e == Event.acquirePermit) = true) ∧
    ((snapshotWorker c6Env none false "org/model" "main" "/tmp/out"
        ⟨"w.bin", "a1", 5, none⟩ false).2.any isPollEvent = true) := by
  refine ⟨?_, ?_, ?_⟩ <;> decide

/-- Claim C6 amended: in snapshot orchestration the worker's first action is
the semaphore acquisition — no cancellation poll precedes it; the token is
polled immediately after the permit is acquired, and again on entry to the
per-file download. -/
theorem claim_C6_amended (w : WorkerEnv) (cacheDir : Option String) (enableDedup : Bool)
    (repoId revision localDir : String) (file : HfFileInfo) (prog : Bool) :
    ((snapshotWorker w cacheDir enableDedup repoId revision localDir file prog).2.takeWhile
      (fun e => !(e == Event.acquirePermit))) = [] ∧
    (w.acquire = Except.ok () →
      (snapshotWorker w cacheDir enableDedup repoId revision localDir file prog).2[1]? =
        some (Event.pollCancel (w.dfi.cancel 0)) ∧
      (w.dfi.cancel 0 = false →
        (snapshotWorker w cacheDir enableDedup repoId revision localDir file prog).2[2]? =
          some (Event.pollCancel (w.dfi.cancel 1)))) := by
  constructor
  · cases hacq : w.acquire with
    | error m =>
      unfold snapshotWorker
      rw [hacq]
      rfl
    | ok u =>
      unfold snapshotWorker
      rw [hacq]
      cases hc : w.dfi.cancel 0 <;> simp [hc, List.takeWhile_cons]
  · intro hacq
    unfold snapshotWorker
    rw [hacq]
    cases hc : w.dfi.cancel 0 with
    | true =>
      exact ⟨by simp, fun hfalse => Bool.noConfusion hfalse⟩
    | false =>
      refine ⟨by simp, fun _ => ?_⟩
      have hh := downloadFileWithInfo_trace_head w.dfi cacheDir enableDedup repoId revision
        (some localDir) file prog 1
      cases htr : (downloadFileWithInfo w.dfi cacheDir enableDedup repoId revision
          (some localDir) file prog 1).2 with
      | nil => rw [htr] at hh; cases hh
      | cons x rest =>
        rw [htr] at hh
        simp only [List.head?_cons, Option.some_inj] at hh
        subst hh
        simp [htr]

/-- Witness for the amended C6 at the concrete worker environment. -/
theorem claim_C6_witness :
    ((snapshotWorker c6Env none false "org/model" "main" "/tmp/out"
        ⟨"w.bin", "a1", 5, none⟩ false).2.takeWhile
      (fun e => !(e == Event.acquirePermit))) = [] ∧
    (snapshotWorker c6Env none false "org/model" "main" "/tmp/out"
        ⟨"w.bin", "a1", 5, none⟩ false).2[1]? = some (Event.pollCancel false) ∧
    (snapshotWorker c6Env none false "org/model" "main" "/tmp/out"
        ⟨"w.bin", "a1", 5, none⟩ false).2[2]? = some (Event.pollCancel false) := by
  have h := claim_C6_amended c6Env none false "org/model" "main" "/tmp/out"
    ⟨"w.bin", "a1", 5, none⟩ false
  obtain ⟨h1, h2⟩ := h
  obtain ⟨h3, h4⟩ := h2 rfl
  exact ⟨h1, h3, h4 rfl⟩

/-- Claim C1 evaluated at its failing input (cancellation observed at the
first poll of a download): the adapter reports the cancellation, but the
C ABI error struct built by `XetError::from_anyhow` carries code
`Unknown = 99`, not `Cancelled = 7` — `from_anyhow` maps every anyhow
error, cancellation included, to `Unknown`. -/
theorem claim_C1_code_bug_eval :
    (downloadFileWithCancel c1Env none false "org/model" "w.bin" none (some "/tmp/out")
      false).1 = DownResult.err "Download cancelled" ∧
    xetDownloadFileFfi c1Env none false "org/model" "w.bin" none (some "/tmp/out") false =
      some (some ⟨99, "Download cancelled"⟩, none) ∧
    xetErrorCodeValue XetErrorCodeModel.cancelled = 7 ∧
    ((99 : Int) ≠ 7) := by
  refine ⟨by decide, by decide, rfl, by decide⟩

/-- Network events survive filtering a run of listing events unchanged. -/
theorem filter_net_replicate (n : Nat) :
    (List.replicate n Event.netList).filter isNetEvent = List.replicate n Event.netList := by
  induction n with
  | zero => rfl
  | succ k ih => simp [List.replicate_succ, List.filter_cons, isNetEvent, ih]

/-- The cache short-circuit of `download_file_with_info`: with the first
poll clean, the parent directory created, the destination present and of
the expected size, the call returns the destination and performs only the
poll, the directory creation, and the complete-marking progress calls. -/
theorem downloadFileWithInfo_cacheHit (env : DfiEnv) (cd : Option String) (ed : Bool)
    (r rv : String) (ld : Option String) (fi : HfFileInfo) (p : Bool)
    (hc : env.cancel 0 = false) (hdir : env.createDirResult = Except.ok ())
    (hex : env.destExists = true) (hmeta : env.destMetadataLen = some fi.size) :
    downloadFileWithInfo env cd ed r rv ld fi p 0 =
      (DownResult.ok (determineDestination ld cd r rv fi.path),
       Event.pollCancel false ::
         ((match parentDir (determineDestination ld cd r rv fi.path) with
           | some _ => [Event.fsCreateDir]
           | none => []) ++
          (if p then
            [Event.progEnsure fi.path fi.size,
             Event.progUpdate fi.path fi.size fi.size true]
           else []))) := by
  unfold downloadFileWithInfo
  rw [hc]
  simp only [Bool.false_eq_true, if_false]
  cases hpd : parentDir (determineDestination ld cd r rv fi.path) with
  | some d => simp [hdir, hex, hmeta]
  | none => simp [hdir, hex, hmeta]

/-- Claim C2 counterexample, at the scenario-S2 input: the cache-hit
conditions hold and the path is returned, yet the operation's trace does
contain network traffic (the tree listing), so "issues no network request"
is false of the single-file download operation. -/
theorem claim_C2_counterexample :
    (downloadFileWithCancel c2Env (some "/tmp/c") true "org/model" "w.bin" none none
      false).1 = DownResult.ok "/tmp/c/org--model/main/w.bin" ∧
    ((downloadFileWithCancel c2Env (some "/tmp/c") true "org/model" "w.bin" none none
      false).2.filter isNetEvent ≠ []) := by
  exact ⟨by decide, by decide⟩

/-- Claim C2 amended: on a cache hit (destination exists with the
descriptor's size), the single-file download returns the destination path,
marks the progress entry complete, and issues no network request beyond the
repository tree listing — in particular no HEAD probe and no content
download. -/
theorem claim_C2_amended (env : DfcEnv) (cacheDir : Option String) (enableDedup : Bool)
    (repoId filename : String) (revision : Option String) (localDir : Option String)
    (prog : Bool) (files : List HfFileInfo) (fi : HfFileInfo)
    (hlist : (listFiles env).1 = Except.ok files)
    (hfind : files.find? (fun f => f.path == filename) = some fi)
    (hc : env.dfi.cancel 0 = false)
    (hdir : env.dfi.createDirResult = Except.ok ())
    (hex : env.dfi.destExists = true)
    (hmeta : env.dfi.destMetadataLen = some fi.size) :
    (downloadFileWithCancel env cacheDir enableDedup repoId filename revision localDir
        prog).1 =
      DownResult.ok (determineDestination localDir cacheDir repoId (revision.getD "main")
        fi.path) ∧
    ((downloadFileWithCancel env cacheDir enableDedup repoId filename revision localDir
        prog).2.filter isNetEvent) =
      List.replicate (sendWithRetry env.listAttempts "list files"
        respIsSuccess).attemptsMade Event.netList ∧
    (prog = true →
      Event.progUpdate fi.path fi.size fi.size true ∈
        (downloadFileWithCancel env cacheDir enableDedup repoId filename revision localDir
          prog).2) := by
  have hinfo := downloadFileWithInfo_cacheHit env.dfi cacheDir enableDedup repoId
    (revision.getD "main") localDir fi prog hc hdir hex hmeta
  have hev : (listFiles env).2 = List.replicate (sendWithRetry env.listAttempts
      "list files" respIsSuccess).attemptsMade Event.netList := by
    unfold listFiles
    dsimp only
    cases (sendWithRetry env.listAttempts "list files" respIsSuccess).result with
    | error m => rfl
    | ok resp => cases env.listJson <;> rfl
  unfold downloadFileWithCancel
  dsimp only
  rw [hlist]
  dsimp only
  rw [hfind]
  dsimp only
  rw [hinfo]
  dsimp only
  refine ⟨rfl, ?_, ?_⟩
  · rw [hev]
    cases hpd : parentDir (determineDestination localDir cacheDir repoId
        (revision.getD "main") fi.path) <;>
      cases prog <;>
        simp [List.filter_append, filter_net_replicate, List.filter_cons, isNetEvent]
  · intro hp
    subst hp
    cases hpd : parentDir (determineDestination localDir cacheDir repoId
        (revision.getD "main") fi.path) <;> simp

/-- Witness for the amended C2 at the scenario-S2 environment. -/
theorem claim_C2_witness :
    (downloadFileWithCancel c2Env (some "/tmp/c") true "org/model" "w.bin" none none
        true).1 =
      DownResult.ok (determineDestination none (some "/tmp/c") "org/model" "main"
        "w.bin") ∧
    ((downloadFileWithCancel c2Env (some "/tmp/c") true "org/model" "w.bin" none none
        true).2.filter isNetEvent) =
      List.replicate (sendWithRetry c2Env.listAttempts "list files"
        respIsSuccess).attemptsMade Event.netList ∧
    (true = true →
      Event.progUpdate "w.bin" 10 10 true ∈
        (downloadFileWithCancel c2Env (some "/tmp/c") true "org/model" "w.bin" none none
          true).2) :=
  claim_C2_amended c2Env (some "/tmp/c") true "org/model" "w.bin" none none true
    [⟨"w.bin", "a1", 10, none⟩] ⟨"w.bin", "a1", 10, none⟩ rfl rfl rfl rfl rfl rfl

/-- Claim C3: when the HEAD probe advertises dedup metadata and dedup is
enabled, a failing dedup path (whatever its error) is not surfaced: the
call's outcome is exactly the plain streaming-HTTP path's outcome, so only
a plain-HTTP failure is user-visible. -/
theorem claim_C3 (env : DfiEnv) (cacheDir : Option String) (repoId revision : String)
    (localDir : Option String) (fi : HfFileInfo) (prog : Bool) (headResp : RespModel)
    (xfd : XetFileData) (m : String)
    (hc : env.cancel 0 = false)
    (hdir : env.createDirResult = Except.ok ())
    (hmiss : (env.destExists &&
      (match env.destMetadataLen with
       | some len => len == fi.size
       | none => false)) = false)
    (hbuild : env.noRedirectBuild = Except.ok ())
    (hhead : (sendWithRetry env.headAttempts "head request" headIsSuccess).result =
      Except.ok headResp)
    (hparse : parseXetFileDataFromHeaders headResp.headers = Except.ok (some xfd))
    (hx : (downloadWithXet env 1 fi.path
        (determineDestination localDir cacheDir repoId revision fi.path) fi.size prog
        xfd).1 = DownResult.err m) :
    (downloadFileWithInfo env cacheDir true repoId revision localDir fi prog 0).1 =
      (plainHttpDownload env fi.path
        (determineDestination localDir cacheDir repoId revision fi.path) fi.size prog
        (downloadWithXet env 1 fi.path
          (determineDestination localDir cacheDir repoId revision fi.path) fi.size prog
          xfd).2.2).1 := by
  unfold downloadFileWithInfo
  rw [hc]
  simp only [Bool.false_eq_true, if_false]
  cases hpd : parentDir (determineDestination localDir cacheDir repoId revision fi.path) with
  | some d =>
    rw [hdir]
    dsimp only
    rw [hmiss]
    simp only [Bool.false_eq_true, if_false]
    rw [hbuild]
    dsimp only
    rw [hhead]
    dsimp only
    rw [hparse]
    dsimp only
    simp only [Nat.zero_add]
    rw [hx]
  | none =>
    rw [hmiss]
    simp only [Bool.false_eq_true, if_false]
    rw [hbuild]
    dsimp only
    rw [hhead]
    dsimp only
    rw [hparse]
    dsimp only
    simp only [Nat.zero_add]
    rw [hx]

/-- Witness for C3 at the scenario-S3 environment: dedup advertised, the
refresh GET fails with HTTP 500, and the outcome equals the plain-HTTP
outcome. -/
theorem claim_C3_witness :
    (downloadFileWithInfo c3Env none true "org/model" "main" (some "/tmp/out")
        ⟨"w.bin", "a1", 5, none⟩ false 0).1 =
      (plainHttpDownload c3Env "w.bin" "/tmp/out/w.bin" 5 false
        (downloadWithXet c3Env 1 "w.bin" "/tmp/out/w.bin" 5 false
          ⟨"deadbeef", "https://hub/xet-auth"⟩).2.2).1 :=
  claim_C3 c3Env none "org/model" "main" (some "/tmp/out") ⟨"w.bin", "a1", 5, none⟩
    false ⟨302, c3Headers, none⟩ ⟨"deadbeef", "https://hub/xet-auth"⟩
    "Failed to get XET token: HTTP 500" rfl rfl rfl rfl rfl (by decide) (by decide)

/-- Witness for C5: a CAS tracking batch applied to a live state. -/
theorem claim_C5_witness :
    (⟨PhaseModel.downloading, 100, 10, [("w.bin", ⟨100, 10⟩)], some 1,
        some 0⟩ : OperationProgressState).completedBytes ≤ U64MAX ∧
    progressOpWF (ProgressOp.applyTrackingUpdate ⟨100, 60, [⟨"w.bin", 60, 100⟩]⟩) = true ∧
    progressLe
      ⟨PhaseModel.downloading, 100, 10, [("w.bin", ⟨100, 10⟩)], some 1, some 0⟩
      (applyProgressOp 200 50
        (ProgressOp.applyTrackingUpdate ⟨100, 60, [⟨"w.bin", 60, 100⟩]⟩)
        ⟨PhaseModel.downloading, 100, 10, [("w.bin", ⟨100, 10⟩)], some 1, some 0⟩) :=
  ⟨by decide, rfl,
   claim_C5 200 50 (ProgressOp.applyTrackingUpdate ⟨100, 60, [⟨"w.bin", 60, 100⟩]⟩)
     ⟨PhaseModel.downloading, 100, 10, [("w.bin", ⟨100, 10⟩)], some 1, some 0⟩
     (by decide) rfl⟩

end Xet
